import Mathlib

/-!
Verification of the ChapterSF_hostel monitoring app (src/app.py).

The development shallowly embeds the data pipeline of the app:
cells of the persisted table, the Google-Sheet-backed history store
(`load_historical_data` / `save_historical_data`), the website extractor
(`fetch_website_data`), the Instagram fetcher (`fetch_instagram_data`),
the snapshot assembly (`current_data`), and the presenter's derived
values (`sitemap_display`, the H1-tag list reconstruction).

Modelling conventions:
* pandas / Python cell values are the inductive `Cell`; `Cell.na` stands
  for all of pandas' null values (`pd.NA`, `NaN`, `NaT`, Python `None`) —
  the code treats them interchangeably via `pd.isna` / `where(notnull, None)`,
  and all of their textual forms fail timestamp parsing alike.
* datetime instants are integers; `intToStr` / `strToTime` model the
  textual round trip `str(pandas.Timestamp)` / `pd.to_datetime` through a
  decimal rendering, keeping the essential properties (printing then
  parsing recovers the instant; arbitrary text can fail to parse).
* network effects are explicit inputs: each fetcher takes a structure
  describing the outcome of every request it would make, and is a total
  function of it (the Python functions catch their exceptions internally).
* DataFrames are `Table` (a column list plus rows of key/cell pairs);
  per-column pandas operations are modelled per row, which is equivalent
  for the row-wise properties proved here.
-/

/-- A cell of the persisted table / a Python value appearing in the app's
dicts: the absent sentinel, a string, an integer, a boolean, a datetime
instant, or a Python list of strings (the in-memory H1 tag list). -/
inductive Cell where
  | na
  | str (s : String)
  | num (n : Int)
  | bool (b : Bool)
  | time (t : Int)
  | list (xs : List String)
  deriving DecidableEq

/-- A row (or Python dict): ordered association list from column names to cells. -/
abbrev Row := List (String × Cell)

/-- A DataFrame: its column order and its rows. -/
structure Table where
  cols : List String
  rows : List Row
  deriving DecidableEq

/-- Reading a cell; a missing column reads as the absent sentinel
(matching the code, which fills every missing expected column with `pd.NA`
before reading it). -/
def getCell (r : Row) (c : String) : Cell :=
  match r.find? (fun p => decide (p.1 = c)) with
  | some p => p.2
  | none => Cell.na

/-- `col in df.columns` / `key in dict`. -/
def hasCol (r : Row) (c : String) : Bool :=
  r.any (fun p => decide (p.1 = c))

/-- `dict.get(key, default)` (lines 413-420 of app.py). -/
def dictGetD (r : Row) (c : String) (d : Cell) : Cell :=
  match r.find? (fun p => decide (p.1 = c)) with
  | some p => p.2
  | none => d

/-- app.py line 34: the fixed canonical column set, in order. -/
def ALL_COLUMNS : List String :=
  ["Timestamp", "URL", "Instagram Handle", "Title", "Meta Description",
   "Robots.txt Exists", "Sitemap Found", "H1 Tags",
   "Followers", "Following", "Posts"]

/-- app.py line 41: the columns coerced to numeric. -/
def NUMERIC_COLUMNS : List String := ["Followers", "Following", "Posts"]

/-- app.py line 21. -/
def TARGET_URL : String := "https://www.chapterhostels.com/"

/-- app.py line 22. -/
def INSTAGRAM_USERNAME : String := "chapterhostels"

/-! ### Decimal integer codec (model of timestamp and integer text forms) -/

/-- The decimal digit character for `d < 10`. -/
def digitChar (d : Nat) : Char := Char.ofNat (48 + d)

/-- Little-endian base-10 digits, with explicit fuel so the recursion is
structural (and therefore evaluates by kernel reduction in the concrete
witnesses below); `fuel ≥ n` is always enough. -/
def natDigitsRev : Nat → Nat → List Nat
  | 0, _ => []
  | fuel + 1, n => if n = 0 then [] else n % 10 :: natDigitsRev fuel (n / 10)

/-- Decimal rendering of a natural number, most significant digit first. -/
def natToStrChars (n : Nat) : List Char :=
  if n = 0 then ['0'] else ((natDigitsRev n n).map digitChar).reverse

/-- Decimal rendering of an integer; models `str` of an int and also the
textual serialization of a datetime instant (`astype(str)` on Timestamp). -/
def intToStr (t : Int) : String :=
  if t < 0 then String.mk ('-' :: natToStrChars t.natAbs)
  else String.mk (natToStrChars t.natAbs)

/-- Is `c` an ASCII decimal digit? -/
def isDigitCh (c : Char) : Bool := 48 ≤ c.toNat ∧ c.toNat ≤ 57

/-- Parse a nonempty all-digit character list as a natural number. -/
def parseNatChars (l : List Char) : Option Nat :=
  if l ≠ [] ∧ l.all isDigitCh
  then some (l.foldl (fun a c => a * 10 + (c.toNat - 48)) 0)
  else none

/-- Model of `pd.to_datetime` applied to text: parse an optionally signed
decimal instant, `none` on anything else (the unparseable-timestamp case). -/
def strToTime (s : String) : Option Int :=
  match s.data with
  | [] => none
  | c :: rest =>
    if c = '-' then
      match parseNatChars rest with
      | some n => some (-(n : Int))
      | none => none
    else
      match parseNatChars (c :: rest) with
      | some n => some ((n : Int))
      | none => none

/-! ### CPython `repr` of strings and `str` of string lists -/

/-- Lowercase hexadecimal digit character for `d < 16`. -/
def hexDigitChar (d : Nat) : Char :=
  if d < 10 then Char.ofNat (48 + d) else Char.ofNat (87 + d)

/-- CPython escaping of one character inside a string repr quoted by `q`:
backslash and the quote are backslash-escaped, newline / carriage return /
tab take their letter forms, other control characters take `\xNN`; every
other character (code points ≥ 0x80 treated as printable) stays verbatim. -/
def escChar (q c : Char) : List Char :=
  if c = '\\' then ['\\', '\\']
  else if c = q then ['\\', q]
  else if c = '\n' then ['\\', 'n']
  else if c = '\r' then ['\\', 'r']
  else if c = '\t' then ['\\', 't']
  else if c.toNat < 32 ∨ c.toNat = 127 then
    ['\\', 'x', hexDigitChar (c.toNat / 16), hexDigitChar (c.toNat % 16)]
  else [c]

/-- Escape a whole string body for quote `q`. -/
def escBody (q : Char) (s : List Char) : List Char := (s.map (escChar q)).flatten

/-- CPython's quote choice for `repr` of a string: single quotes, unless the
string contains a single quote and no double quote. -/
def quoteOf (s : List Char) : Char :=
  if '\'' ∈ s ∧ ¬ '"' ∈ s then '"' else '\''

/-- CPython `repr` of a string, at the character-list level. -/
def pyReprChars (s : List Char) : List Char :=
  quoteOf s :: (escBody (quoteOf s) s ++ [quoteOf s])

/-- CPython `repr` of a string. -/
def pyReprStr (s : String) : String := String.mk (pyReprChars s.data)

/-- The tail of `", ".join(repr(x) for x in xs)` after its first element. -/
def serSep : List (List Char) → List Char
  | [] => []
  | x :: t => ',' :: ' ' :: (pyReprChars x ++ serSep t)

/-- `", ".join(repr(x) for x in xs)`. -/
def serElems : List (List Char) → List Char
  | [] => []
  | x :: t => pyReprChars x ++ serSep t

/-- CPython `str` of a list of strings: `"[" + ", ".join(map(repr, xs)) + "]"`.
This is the store's textual serialization of the H1 tag sequence
(app.py lines 252-256 apply `str` to the list). -/
def pyStrOfList (xs : List String) : String :=
  String.mk ('[' :: (serElems (xs.map String.data) ++ [']']))

/-- Python `str()` of a cell value: `str(pd.NA)` is `"<NA>"` (likewise the
other null forms print as non-parseable sentinel text), strings are
unchanged, integers and instants print in decimal, booleans print
`True` / `False`, and lists print as their Python list representation. -/
def pyStr : Cell → String
  | Cell.na => "<NA>"
  | Cell.str s => s
  | Cell.num n => intToStr n
  | Cell.bool b => if b then "True" else "False"
  | Cell.time t => intToStr t
  | Cell.list xs => pyStrOfList xs

/-! ### `ast.literal_eval` restricted to list-of-string literals

The presenter (app.py lines 502-507) calls `ast.literal_eval` on the stored
H1 text when it is bracket-delimited. The parser below covers the literal
sublanguage the store writes and `literal_eval` reads back for it: a
bracketed, comma-separated sequence of quoted string literals with the
standard escape forms emitted by `repr` (plus `\"`), optional whitespace,
and an optional trailing comma. -/

/-- Decode the single-letter escapes of a Python string literal. -/
def decodeEsc (c : Char) : Option Char :=
  if c = '\\' then some '\\'
  else if c = '\'' then some '\''
  else if c = '"' then some '"'
  else if c = 'n' then some '\n'
  else if c = 'r' then some '\r'
  else if c = 't' then some '\t'
  else none

/-- Hexadecimal digit value. -/
def hexVal (c : Char) : Option Nat :=
  if 48 ≤ c.toNat ∧ c.toNat ≤ 57 then some (c.toNat - 48)
  else if 97 ≤ c.toNat ∧ c.toNat ≤ 102 then some (c.toNat - 87)
  else if 65 ≤ c.toNat ∧ c.toNat ≤ 70 then some (c.toNat - 55)
  else none

/-- Parse the body of a quoted string literal up to the closing quote `q`,
returning the decoded characters and the remaining input. -/
def parseStrBody (q : Char) : List Char → Option (List Char × List Char)
  | [] => none
  | c :: t =>
    if c = q then some ([], t)
    else if c = '\\' then
      match t with
      | [] => none
      | e :: t2 =>
        if e = 'x' then
          match t2 with
          | h1 :: h2 :: t3 =>
            match hexVal h1, hexVal h2 with
            | some a, some b =>
              (parseStrBody q t3).map (fun p => (Char.ofNat (16 * a + b) :: p.1, p.2))
            | _, _ => none
          | _ => none
        else
          match decodeEsc e with
          | some d => (parseStrBody q t2).map (fun p => (d :: p.1, p.2))
          | none => none
    else if c = '\n' then none
    else (parseStrBody q t).map (fun p => (c :: p.1, p.2))
  termination_by l => l.length
  decreasing_by all_goals simp_arith [List.length]

/-- Parse one quoted string literal. -/
def parseStrLit : List Char → Option (List Char × List Char)
  | [] => none
  | c :: t => if c = '\'' ∨ c = '"' then parseStrBody c t else none

/-- Python literal whitespace. -/
def isPySpace (c : Char) : Bool := c = ' ' ∨ c = '\t' ∨ c = '\n' ∨ c = '\r'

/-- Skip whitespace. -/
def skipWS (l : List Char) : List Char := l.dropWhile isPySpace

/-- After one parsed element: the remaining `, element`* `]` part of a list
literal (fuelled by an upper bound on the number of elements left). -/
def parseMore : Nat → List Char → Option (List (List Char) × List Char)
  | 0, _ => none
  | fuel + 1, l =>
    match skipWS l with
    | [] => none
    | c :: t =>
      if c = ']' then some ([], t)
      else if c = ',' then
        match skipWS t with
        | [] => none
        | c2 :: t2 =>
          if c2 = ']' then some ([], t2)
          else
            match parseStrLit (c2 :: t2) with
            | none => none
            | some (s, r) =>
              match parseMore fuel r with
              | none => none
              | some (ss, r2) => some (s :: ss, r2)
      else none

/-- Parse a list-of-strings literal, returning elements and remaining input. -/
def parseListChars (fuel : Nat) (l : List Char) : Option (List (List Char) × List Char) :=
  match skipWS l with
  | [] => none
  | c :: t =>
    if c = '[' then
      match skipWS t with
      | [] => none
      | c2 :: t2 =>
        if c2 = ']' then some ([], t2)
        else
          match parseStrLit (c2 :: t2) with
          | none => none
          | some (s, r) =>
            match parseMore fuel r with
            | none => none
            | some (ss, r2) => some (s :: ss, r2)
    else none

/-- `ast.literal_eval` on a list-of-strings literal: the whole input must be
consumed (up to trailing whitespace). -/
def literalEvalStrList (s : String) : Option (List String) :=
  match parseListChars (s.data.length + 1) s.data with
  | some (xs, r) => if skipWS r = [] then some (xs.map String.mk) else none
  | none => none

/-! ### pandas primitives used by the store -/

/-- `pd.to_datetime(x, errors='coerce')` on one cell: instants pass through,
text parses or coerces to `NaT` (`none`), integers are taken as instants
(pandas reads ints as epoch offsets), everything else coerces to `NaT`. -/
def pd_to_datetime : Cell → Option Int
  | Cell.time t => some t
  | Cell.str s => strToTime s
  | Cell.num n => some n
  | _ => none

/-- `pd.to_numeric(x, errors='coerce')` on one cell: numbers pass through,
numeric text parses, booleans coerce to 0/1, everything else coerces to NA. -/
def pd_to_numeric : Cell → Cell
  | Cell.num n => Cell.num n
  | Cell.str s =>
    match strToTime s with
    | some n => Cell.num n
    | none => Cell.na
  | Cell.bool b => Cell.num (if b then 1 else 0)
  | _ => Cell.na

/-- `df.dropna(how='all')`: is every cell of the row absent? -/
def rowAllNa (r : Row) : Bool := r.all (fun p => decide (p.2 = Cell.na))

/-! ### History Store (app.py lines 169-278)

The Google-Sheet connection is modelled by its observable outcome: `none`
when the connection or read raises (caught at app.py line 215), otherwise
the raw rows of the worksheet. -/

/-- The per-column cell produced by `load_historical_data`'s validation for
a row whose timestamp parsed to `t`: Timestamp becomes the parsed instant,
the declared numeric columns are coerced, `H1 Tags` is `astype(str)`, and
every other column is read as-is (absent-filled when missing). -/
def loadCellFor (r : Row) (t : Int) (c : String) : Cell :=
  if c = "Timestamp" then Cell.time t
  else if c ∈ NUMERIC_COLUMNS then pd_to_numeric (getCell r c)
  else if c = "H1 Tags" then Cell.str (pyStr (getCell r c))
  else getCell r c

/-- One raw sheet row through `load_historical_data`'s validation
(app.py lines 184-213): `none` when `pd.to_datetime(..., errors='coerce')`
leaves `NaT` and the row is dropped, otherwise the row normalized to the
canonical columns in canonical order. -/
def normalizeLoadedRow (r : Row) : Option Row :=
  match pd_to_datetime (getCell r "Timestamp") with
  | none => none
  | some t => some (ALL_COLUMNS.map (fun c => (c, loadCellFor r t c)))

/-- app.py lines 169-224: load the sheet, drop fully-empty rows, ensure the
canonical columns, drop rows with unparseable timestamps, coerce numerics,
stringify `H1 Tags`, return the canonical column order; on any
storage-access failure return an empty table with the canonical schema. -/
def load_historical_data : Option (List Row) → Table
  | none => ⟨ALL_COLUMNS, []⟩
  | some sheet =>
    let rows := sheet.filter (fun r => ! rowAllNa r)
    ⟨ALL_COLUMNS, rows.filterMap normalizeLoadedRow⟩

/-- app.py lines 232-256: the new record as a one-row DataFrame — Timestamp
through `pd.to_datetime(errors='coerce')`, missing expected columns filled
with NA, columns reordered canonically, numeric columns coerced, and
`H1 Tags` unconditionally converted with `str()` (both branches of the
lambda at line 255 call `str`). -/
def saveCellFor (d : Row) (c : String) : Cell :=
  if c = "Timestamp" then
    match pd_to_datetime (getCell d c) with
    | some t => Cell.time t
    | none => Cell.na
  else if c ∈ NUMERIC_COLUMNS then pd_to_numeric (getCell d c)
  else if c = "H1 Tags" then Cell.str (pyStr (getCell d c))
  else getCell d c

/-- The converted record row, canonical columns in canonical order. -/
def convertRecord (d : Row) : Row :=
  ALL_COLUMNS.map (fun c => (c, saveCellFor d c))

/-- The `sort_values(by="Timestamp", ascending=True)` key order: valid
instants ascend, null timestamps sort last (`na_position='last'`). -/
def tsLe (a b : Row) : Bool :=
  match getCell a "Timestamp", getCell b "Timestamp" with
  | Cell.time x, Cell.time y => decide (x ≤ y)
  | Cell.time _, _ => true
  | _, Cell.time _ => false
  | _, _ => true

/-- Insert into a sorted list (the helper of `sortRows`). -/
def insertSorted {α : Type} (le : α → α → Bool) (x : α) : List α → List α
  | [] => [x]
  | y :: t => if le x y then x :: y :: t else y :: insertSorted le x t

/-- Model of `sort_values`: a sort of the rows by the given order (insertion
sort, chosen structural so that witnesses evaluate; pandas' default sort
promises only the resulting order, which is all the code relies on). -/
def sortRows {α : Type} (le : α → α → Bool) : List α → List α
  | [] => []
  | x :: t => insertSorted le x (sortRows le t)

/-- app.py line 268: `df_updated['Timestamp'].astype(str)` on one row. -/
def stringifyTs (r : Row) : Row :=
  r.map (fun p => if p.1 = "Timestamp" then (p.1, Cell.str (pyStr p.2)) else p)

/-- app.py lines 227-278: load the current table, convert the new record to
the canonical schema, concatenate, sort ascending by Timestamp, stringify
the timestamps, and overwrite the whole sheet with the result. `none` models
the `KeyError` the code raises at line 234 when the record has no
`Timestamp` key (`new_data_df['Timestamp']` on a missing column); the
`astype(object).where(pd.notnull, None)` step at lines 260-261 maps nulls
to nulls and is the identity here. The returned table is the exact contents
`conn.update` persists (a write failure is only reported, so the value
written on success is this table). -/
def save_historical_data (sheet : Option (List Row)) (d : Row) : Option Table :=
  if hasCol d "Timestamp" then
    some ⟨ALL_COLUMNS,
      (sortRows tsLe ((load_historical_data sheet).rows ++ [convertRecord d])).map
        stringifyTs⟩
  else none

/-- Does `l` start with the pattern `p`? -/
def listStartsWith : List Char → List Char → Bool
  | _, [] => true
  | [], _ => false
  | a :: s, b :: p => a = b && listStartsWith s p

/-- Does `l` contain `p` as a contiguous run? -/
def listContainsSub (l p : List Char) : Bool :=
  match l with
  | [] => p.isEmpty
  | _ :: t => listStartsWith l p || listContainsSub t p

/-- Python's `pat in s` substring test. -/
def strContains (s pat : String) : Bool := listContainsSub s.data pat.data

/-! ### Extractor (app.py lines 46-126)

All network traffic of `fetch_website_data` is an explicit environment:
the parsed page (`none` when `get_soup` returns `None` on timeout, request
error, or parse error), the robots.txt outcome, and the HEAD probe of each
conventional sitemap path. The Python function catches every request
exception it can see, so it is a total function of this environment. -/

/-- The parsed page as the extractor reads it: the `<title>` string (when a
title tag with a string is present), the `og:description` and
`name=description` contents (when present), and the `<h1>` texts in
document order. -/
structure Soup where
  title : Option String
  ogDesc : Option String
  metaDesc : Option String
  h1s : List String

/-- Outcome of the robots.txt GET: a raised request exception, or a status
code together with the values captured by
`re.findall(r'Sitemap:\s*(.*)', text, re.IGNORECASE)` on the body. -/
inductive RobotsOutcome where
  | err
  | resp (status : Nat) (sitemapLinks : List String)

/-- The extractor's request environment: target URL, page parse result,
robots outcome, and per-URL result of the sitemap HEAD probes (`none`
models a raised request exception, otherwise the final status code). -/
structure WebEnv where
  url : String
  soup : Option Soup
  robots : RobotsOutcome
  probe : String → Option Nat

/-- app.py line 108. -/
def COMMON_SITEMAPS : List String :=
  ["/sitemap.xml", "/sitemap_index.xml", "/sitemap", "/sitemap.php"]

/-- Textual model of `urllib.parse.urljoin` for the app's base-plus-absolute-path
uses; the claims below depend only on which joined URLs appear, not on the
join's internal normalization. -/
def urljoin (base path : String) : String := base ++ path

/-- `", ".join(xs)`. -/
def commaJoin (xs : List String) : String := String.intercalate ", " xs

/-- app.py lines 65-71: the extractor's default record. -/
def defaultWebsiteData : Row :=
  [("Title", Cell.str "N/A"),
   ("Meta Description", Cell.str "N/A"),
   ("Robots.txt Exists", Cell.bool false),
   ("Sitemap Found", Cell.str "N/A"),
   ("H1 Tags", Cell.list [])]

/-- The sitemap directive values a 200 robots.txt response contributed,
each stripped (app.py line 97); empty otherwise. -/
def robotsDiscovered (env : WebEnv) : List String :=
  match env.robots with
  | RobotsOutcome.err => []
  | RobotsOutcome.resp status links =>
    if status = 200 then links.map (fun l => l.trim) else []

/-- The conventional sitemap URLs whose HEAD probe answered 200, in probe
order (app.py lines 111-119). -/
def probeDiscovered (env : WebEnv) : List String :=
  (COMMON_SITEMAPS.map (urljoin env.url)).filter
    (fun u => decide (env.probe u = some 200))

/-- app.py lines 91-101: `Robots.txt Exists` is set exactly when the
robots.txt GET answers 200. -/
def robotsExistsOf (env : WebEnv) : Bool :=
  match env.robots with
  | RobotsOutcome.err => false
  | RobotsOutcome.resp status _ => status = 200

/-- app.py lines 90-105: the sitemap status after the robots.txt step —
the joined stripped directive values on a 200 response with directives, the
directive-not-found string on a 200 response without, and the untouched
"N/A" default on a non-200 response or a request exception. -/
def robotsSitemapStatus (env : WebEnv) : String :=
  match env.robots with
  | RobotsOutcome.err => "N/A"
  | RobotsOutcome.resp status links =>
    if status = 200 then
      if links ≠ [] then commaJoin (links.map (fun l => l.trim))
      else "Directive not found in robots.txt"
    else "N/A"

/-- app.py lines 107-124: the final sitemap status — when the robots step
left an empty, directive-not-found, or "N/A" status, probe the conventional
paths; the probe result joins, or the fixed not-found string replaces the
directive-not-found / "N/A" statuses. -/
def sitemapStatusOf (env : WebEnv) : String :=
  let sm1 := robotsSitemapStatus env
  let found_urls := probeDiscovered env
  if sm1 = "" ∨ strContains sm1 "Directive not found" ∨ sm1 = "N/A" then
    if found_urls ≠ [] then commaJoin found_urls
    else if sm1 = "Directive not found in robots.txt" ∨ sm1 = "N/A" then
      "Not found (checked robots.txt & common paths)"
    else sm1
  else sm1

/-- app.py lines 63-126: fetch the page (defaults on failure), extract
title / description / H1 texts, check robots.txt for sitemap directives,
and fall back to probing the conventional sitemap paths. -/
def fetch_website_data (env : WebEnv) : Row :=
  match env.soup with
  | none => defaultWebsiteData
  | some soup =>
    let title :=
      match soup.title with
      | some s => if s = "" then "N/A" else s.trim
      | none => "N/A"
    let meta :=
      match soup.ogDesc with
      | some c =>
        if c = "" then
          match soup.metaDesc with
          | some c2 => if c2 = "" then "N/A" else c2.trim
          | none => "N/A"
        else c.trim
      | none =>
        match soup.metaDesc with
        | some c2 => if c2 = "" then "N/A" else c2.trim
        | none => "N/A"
    let h1s := (soup.h1s.map (fun h => h.trim)).filter (fun h => decide (h ≠ ""))
    [("Title", Cell.str title),
     ("Meta Description", Cell.str meta),
     ("Robots.txt Exists", Cell.bool (robotsExistsOf env)),
     ("Sitemap Found", Cell.str (sitemapStatusOf env)),
     ("H1 Tags", Cell.list h1s)]

/-! ### Profile Fetcher (app.py lines 129-164) -/

/-- Outcome of the Instaloader profile lookup: success with the profile's
three counters (each possibly `None`, normalized by the `finally` loop), or
one of the caught failure classes — profile not found, login required,
private profile, connection error, or any other exception. -/
inductive InstaOutcome where
  | success (followers followees mediacount : Option Int)
  | profileNotFound
  | loginRequired
  | privateNotFollowed
  | connectionError
  | otherError
  deriving DecidableEq

/-- Is the outcome one of the caught failure classes? -/
def InstaOutcome.isFailure : InstaOutcome → Bool
  | InstaOutcome.success _ _ _ => false
  | _ => true

/-- A `None` counter becomes `pd.NA` in the `finally` loop (lines 161-163). -/
def optCount : Option Int → Cell
  | some n => Cell.num n
  | none => Cell.na

/-- app.py lines 130-164: the record starts all-NA, is filled on success,
and every caught exception leaves it all-NA; the `finally` block returns it
in every case, so the function never raises. -/
def fetch_instagram_data (o : InstaOutcome) : Row :=
  match o with
  | InstaOutcome.success f g m =>
    [("Followers", optCount f), ("Following", optCount g), ("Posts", optCount m)]
  | _ => [("Followers", Cell.na), ("Following", Cell.na), ("Posts", Cell.na)]

/-! ### Snapshot assembly (app.py lines 390-426) -/

/-- app.py lines 409-421: the `current_data` dict literal, reading each
field from the fetchers' results with the defaults of the `.get` calls. -/
def mkCurrentData (timestamp : Int) (website_info insta_info : Row) : Row :=
  [("Timestamp", Cell.time timestamp),
   ("URL", Cell.str TARGET_URL),
   ("Instagram Handle", Cell.str INSTAGRAM_USERNAME),
   ("Title", dictGetD website_info "Title" Cell.na),
   ("Meta Description", dictGetD website_info "Meta Description" Cell.na),
   ("Robots.txt Exists", dictGetD website_info "Robots.txt Exists" (Cell.bool false)),
   ("Sitemap Found", dictGetD website_info "Sitemap Found" Cell.na),
   ("H1 Tags", dictGetD website_info "H1 Tags" (Cell.list [])),
   ("Followers", dictGetD insta_info "Followers" Cell.na),
   ("Following", dictGetD insta_info "Following" Cell.na),
   ("Posts", dictGetD insta_info "Posts" Cell.na)]

/-- app.py lines 424-426: append any still-missing expected column as NA. -/
def ensureAllCols (r : Row) : Row :=
  r ++ (ALL_COLUMNS.filter (fun c => ! hasCol r c)).map (fun c => (c, Cell.na))

/-- The snapshot record composed before saving, as a function of the fetch
timestamp and both fetch environments. -/
def currentDataOf (t : Int) (wenv : WebEnv) (ienv : InstaOutcome) : Row :=
  ensureAllCols (mkCurrentData t (fetch_website_data wenv) (fetch_instagram_data ienv))

/-! ### Presenter derivations (app.py lines 480-518) -/

/-- `s.startswith(c)`. -/
def startsWithCh (s : String) (c : Char) : Bool :=
  match s.data with
  | [] => false
  | a :: _ => a = c

/-- `s.endswith(c)`. -/
def endsWithCh (s : String) (c : Char) : Bool :=
  match s.data.getLast? with
  | some a => a = c
  | none => false

/-- app.py lines 480-488: the sitemap status classification of a stored
status string (the non-null string case of the chain). -/
def sitemap_display (s : String) : String :=
  if strContains s "http" ∨ strContains s ".xml" ∨ strContains s ".php" then
    "✅ Found"
  else if strContains s "Not found" then "❌ Not Found"
  else if strContains s "Directive not found" then "⚠️ Not in robots.txt"
  else "❓ (" ++ s ++ ")"

/-- app.py lines 500-511: reconstruct the H1 tag list from the stored cell:
bracket-delimited strings go through `ast.literal_eval` (a parse failure is
surfaced as an inline error entry), other strings become the singleton
list, a raw list passes through, and everything else leaves the list empty. -/
def h1_list (h1s_raw : Cell) : List String :=
  match h1s_raw with
  | Cell.str s =>
    if startsWithCh s '[' ∧ endsWithCh s ']' then
      match literalEvalStrList s with
      | some xs => xs
      | none => ["Error parsing H1 tags from stored string: " ++ s]
    else [s]
  | Cell.list xs => xs
  | _ => []

/-! ## Supporting lemmas -/

/-- `Char.ofNat` below the surrogate range reads back its code. -/
theorem toNat_ofNat_small (n : Nat) (h : n < 55296) : (Char.ofNat n).toNat = n := by
  have hv : n.isValidChar := Or.inl h
  unfold Char.ofNat
  rw [dif_pos hv]
  rfl

theorem digitChar_toNat {d : Nat} (h : d < 10) : (digitChar d).toNat = 48 + d := by
  exact toNat_ofNat_small _ (by omega)

theorem isDigitCh_digitChar {d : Nat} (h : d < 10) : isDigitCh (digitChar d) = true := by
  simp [isDigitCh, digitChar_toNat h]
  omega

theorem natDigitsRev_lt (fuel : Nat) : ∀ n d, d ∈ natDigitsRev fuel n → d < 10 := by
  induction fuel with
  | zero => simp [natDigitsRev]
  | succ fuel ih =>
    intro n d hd
    unfold natDigitsRev at hd
    split at hd
    · simp at hd
    · rcases List.mem_cons.mp hd with h | h
      · subst h
        exact Nat.mod_lt _ (by norm_num)
      · exact ih _ d h

theorem natDigitsRev_ne_nil {fuel n : Nat} (hn : n ≠ 0) (hf : fuel ≠ 0) :
    natDigitsRev fuel n ≠ [] := by
  cases fuel with
  | zero => exact absurd rfl hf
  | succ fuel => simp [natDigitsRev, hn]

theorem natToStrChars_all_digits (n : Nat) : (natToStrChars n).all isDigitCh = true := by
  unfold natToStrChars
  split
  · decide
  · simp only [List.all_eq_true, List.mem_reverse, List.mem_map]
    rintro c ⟨d, hd, rfl⟩
    exact isDigitCh_digitChar (natDigitsRev_lt n n d hd)

theorem natToStrChars_ne_nil (n : Nat) : natToStrChars n ≠ [] := by
  unfold natToStrChars
  split
  · simp
  · intro hEq
    have hlen := congrArg List.length hEq
    simp at hlen
    exact natDigitsRev_ne_nil (by assumption) (by assumption) hlen

theorem foldl_natDigitsRev (fuel : Nat) :
    ∀ n a, n ≤ fuel →
      (((natDigitsRev fuel n).map digitChar).reverse).foldl
          (fun acc c => acc * 10 + (c.toNat - 48)) a
        = a * 10 ^ (natDigitsRev fuel n).length + n := by
  induction fuel with
  | zero =>
    intro n a hn
    have : n = 0 := by omega
    subst this
    simp [natDigitsRev]
  | succ fuel ih =>
    intro n a hn
    by_cases h0 : n = 0
    · subst h0
      simp [natDigitsRev]
    · have hrec : n / 10 ≤ fuel := by omega
      unfold natDigitsRev
      rw [if_neg h0]
      simp only [List.map_cons, List.reverse_cons, List.foldl_concat, List.length_cons]
      rw [ih (n / 10) a hrec]
      have hd : (digitChar (n % 10)).toNat = 48 + n % 10 :=
        digitChar_toNat (Nat.mod_lt _ (by norm_num))
      rw [hd]
      have h48 : 48 + n % 10 - 48 = n % 10 := by omega
      rw [h48]
      calc (a * 10 ^ (natDigitsRev fuel (n / 10)).length + n / 10) * 10 + n % 10
          = a * (10 ^ (natDigitsRev fuel (n / 10)).length * 10)
              + (10 * (n / 10) + n % 10) := by ring
        _ = a * 10 ^ ((natDigitsRev fuel (n / 10)).length + 1) + n := by
              rw [Nat.div_add_mod, pow_succ]

theorem parseNatChars_natToStrChars (n : Nat) :
    parseNatChars (natToStrChars n) = some n := by
  unfold parseNatChars
  rw [if_pos ⟨natToStrChars_ne_nil n, natToStrChars_all_digits n⟩]
  unfold natToStrChars
  by_cases h0 : n = 0
  · subst h0
    decide
  · rw [if_neg h0, foldl_natDigitsRev n n 0 le_rfl]
    simp

theorem digit_head_ne_minus {c : Char} (h : isDigitCh c = true) : c ≠ '-' := by
  intro hEq
  subst hEq
  simp [isDigitCh] at h

/-- Printing an instant and parsing it back recovers the instant. -/
theorem strToTime_intToStr (t : Int) : strToTime (intToStr t) = some t := by
  unfold intToStr
  by_cases h : t < 0
  · rw [if_pos h]
    have : strToTime (String.mk ('-' :: natToStrChars t.natAbs)) =
        match parseNatChars (natToStrChars t.natAbs) with
        | some n => some (-(n : Int))
        | none => none := by
      simp [strToTime]
    rw [this, parseNatChars_natToStrChars]
    have : (t.natAbs : Int) = -t := by omega
    simp [this]
  · rw [if_neg h]
    obtain ⟨c, rest, hEq⟩ := List.exists_cons_of_ne_nil (natToStrChars_ne_nil t.natAbs)
    have hdig : isDigitCh c = true := by
      have hall := natToStrChars_all_digits t.natAbs
      rw [hEq] at hall
      simp [List.all_cons] at hall
      exact hall.1
    have hstep : strToTime (String.mk (c :: rest)) =
        match parseNatChars (c :: rest) with
        | some n => some ((n : Int))
        | none => none := by
      simp [strToTime, digit_head_ne_minus hdig]
    rw [hEq, hstep, ← hEq, parseNatChars_natToStrChars]
    have : (t.natAbs : Int) = t := by omega
    simp [this]

theorem getCell_cons_self (a : String) (v : Cell) (r : Row) :
    getCell ((a, v) :: r) a = v := by
  simp [getCell, List.find?_cons]

theorem getCell_cons_ne (a c : String) (v : Cell) (r : Row) (h : a ≠ c) :
    getCell ((a, v) :: r) c = getCell r c := by
  simp [getCell, List.find?_cons, h]

/-- Reading a column from a row built over a column list. -/
theorem getCell_map_cols (cols : List String) (g : String → Cell) (c : String) :
    getCell (cols.map (fun x => (x, g x))) c = if c ∈ cols then g c else Cell.na := by
  induction cols with
  | nil => simp [getCell]
  | cons a t ih =>
    simp only [List.map_cons]
    by_cases h : a = c
    · subst h
      simp [getCell_cons_self]
    · rw [getCell_cons_ne a c _ _ h, ih]
      by_cases hc : c ∈ t
      · rw [if_pos hc, if_pos (List.mem_cons_of_mem a hc)]
      · rw [if_neg hc, if_neg (by
          intro hmem
          rcases List.mem_cons.mp hmem with h1 | h2
          · exact h h1.symm
          · exact hc h2)]

theorem getCell_of_not_hasCol {r : Row} {c : String} (h : hasCol r c = false) :
    getCell r c = Cell.na := by
  unfold getCell
  have : r.find? (fun p => decide (p.1 = c)) = none := by
    rw [List.find?_eq_none]
    intro p hp
    simp only [decide_eq_true_eq]
    intro hEq
    have : hasCol r c = true := by
      unfold hasCol
      rw [List.any_eq_true]
      exact ⟨p, hp, by simp [hEq]⟩
    simp [this] at h
  rw [this]

/-- `pd.to_numeric(..., errors='coerce')` yields a number or NA, never text. -/
theorem pd_to_numeric_shape (x : Cell) :
    (∃ n, pd_to_numeric x = Cell.num n) ∨ pd_to_numeric x = Cell.na := by
  cases x with
  | str s =>
    cases hs : strToTime s with
    | some n => exact Or.inl ⟨n, by simp [pd_to_numeric, hs]⟩
    | none => exact Or.inr (by simp [pd_to_numeric, hs])
  | na => exact Or.inr rfl
  | num n => exact Or.inl ⟨n, rfl⟩
  | bool b => exact Or.inl ⟨if b then 1 else 0, rfl⟩
  | time t => exact Or.inr rfl
  | list xs => exact Or.inr rfl

theorem stringifyTs_map_cols (cols : List String) (g : String → Cell) :
    stringifyTs (cols.map (fun c => (c, g c)))
      = cols.map (fun c =>
          (c, if c = "Timestamp" then Cell.str (pyStr (g c)) else g c)) := by
  unfold stringifyTs
  rw [List.map_map]
  apply List.map_congr_left
  intro a _
  by_cases h : a = "Timestamp" <;> simp [h]

theorem mem_insertSorted {α : Type} (le : α → α → Bool) (x a : α) (l : List α) :
    a ∈ insertSorted le x l ↔ a = x ∨ a ∈ l := by
  induction l with
  | nil => simp [insertSorted]
  | cons y t ih =>
    unfold insertSorted
    split
    · simp
    · simp [ih]
      tauto

theorem mem_sortRows {α : Type} (le : α → α → Bool) (a : α) (l : List α) :
    a ∈ sortRows le l ↔ a ∈ l := by
  induction l with
  | nil => simp [sortRows]
  | cons y t ih => simp [sortRows, mem_insertSorted, ih]

/-- Every row the loader returns is a normalization of some raw row whose
timestamp parsed. -/
theorem load_row_shape {sheet : List Row} {r : Row}
    (hr : r ∈ (load_historical_data (some sheet)).rows) :
    ∃ r0 t, pd_to_datetime (getCell r0 "Timestamp") = some t ∧
      r = ALL_COLUMNS.map (fun c => (c, loadCellFor r0 t c)) := by
  simp only [load_historical_data, List.mem_filterMap] at hr
  obtain ⟨r0, _hmem, hnorm⟩ := hr
  unfold normalizeLoadedRow at hnorm
  split at hnorm
  · exact absurd hnorm (by simp)
  · rename_i t ht
    exact ⟨r0, t, ht, by simpa using hnorm.symm⟩

/-- C3: every row returned by `load_historical_data` has a successfully
parsed Timestamp (rows whose stored timestamp does not parse to a valid
instant are dropped), and every declared numeric column (Followers,
Following, Posts) holds a numeric value or the absent sentinel, never
uncoercible text. -/
theorem load_rows_validated (sheet : List Row) (r : Row)
    (hr : r ∈ (load_historical_data (some sheet)).rows) :
    (∃ t, getCell r "Timestamp" = Cell.time t) ∧
      ∀ c ∈ NUMERIC_COLUMNS,
        (∃ n, getCell r c = Cell.num n) ∨ getCell r c = Cell.na := by
  obtain ⟨r0, t, ht, rfl⟩ := load_row_shape hr
  constructor
  · refine ⟨t, ?_⟩
    rw [getCell_map_cols, if_pos (by decide : ("Timestamp" : String) ∈ ALL_COLUMNS)]
    simp [loadCellFor]
  · intro c hc
    have hcAll : c ∈ ALL_COLUMNS := by fin_cases hc <;> decide
    have hcTs : c ≠ "Timestamp" := by fin_cases hc <;> decide
    rw [getCell_map_cols, if_pos hcAll]
    unfold loadCellFor
    rw [if_neg hcTs, if_pos hc]
    exact pd_to_numeric_shape _

def c3Sheet : List Row := [[("Timestamp", Cell.str "100"), ("Followers", Cell.str "7")]]

def c3Row : Row :=
  [("Timestamp", Cell.time 100), ("URL", Cell.na), ("Instagram Handle", Cell.na),
   ("Title", Cell.na), ("Meta Description", Cell.na), ("Robots.txt Exists", Cell.na),
   ("Sitemap Found", Cell.na), ("H1 Tags", Cell.str "<NA>"),
   ("Followers", Cell.num 7), ("Following", Cell.na), ("Posts", Cell.na)]

/-- Witness for C3 at a concrete store. -/
theorem load_rows_validated_witness :
    (∃ t, getCell c3Row "Timestamp" = Cell.time t) ∧
      ∀ c ∈ NUMERIC_COLUMNS,
        (∃ n, getCell c3Row c = Cell.num n) ∨ getCell c3Row c = Cell.na :=
  load_rows_validated c3Sheet c3Row (by decide)

/-- C4: on a storage-access failure (any exception from the connection or
read, the model's `none` input), the loader catches the error and returns an
empty table whose columns are exactly the canonical column set; being a
total function of the outcome, it propagates nothing to its caller. -/
theorem load_storage_failure_empty :
    load_historical_data none = ⟨ALL_COLUMNS, []⟩ := rfl

/-- C6: `fetch_website_data` is a total function of its request environment
(it never raises — all request exceptions are caught in `get_soup` and the
robots/probe loops), and when the page fetch or parse fails (`get_soup`
returns `None`) it returns the record with every field at its unavailable
default: Title "N/A", Meta Description "N/A", Robots.txt Exists False,
Sitemap Found "N/A", H1 Tags empty. -/
theorem fetch_website_data_failure_defaults (env : WebEnv) (h : env.soup = none) :
    fetch_website_data env = defaultWebsiteData := by
  unfold fetch_website_data
  rw [h]

def c6Env : WebEnv :=
  { url := TARGET_URL, soup := none, robots := RobotsOutcome.err, probe := fun _ => none }

/-- Witness for C6 at a concrete failing environment. -/
theorem fetch_website_data_failure_defaults_witness :
    c6Env.soup = none ∧ fetch_website_data c6Env = defaultWebsiteData :=
  ⟨rfl, fetch_website_data_failure_defaults c6Env rfl⟩

/-- C7: every caught profile-fetch failure (profile not found, login
required, private profile, connection error, or any other exception) yields
the record with all three numeric fields absent, and the function returns
normally instead of raising. -/
theorem fetch_instagram_data_failure_all_na (o : InstaOutcome)
    (h : o.isFailure = true) :
    fetch_instagram_data o =
      [("Followers", Cell.na), ("Following", Cell.na), ("Posts", Cell.na)] := by
  cases o <;> first | rfl | simp [InstaOutcome.isFailure] at h

/-- Witness for C7 at the simulated profile-not-found outcome. -/
theorem fetch_instagram_data_failure_all_na_witness :
    InstaOutcome.profileNotFound.isFailure = true ∧
      fetch_instagram_data InstaOutcome.profileNotFound =
        [("Followers", Cell.na), ("Following", Cell.na), ("Posts", Cell.na)] :=
  ⟨rfl, fetch_instagram_data_failure_all_na InstaOutcome.profileNotFound rfl⟩

/-- C5: for every combination of website-fetch and profile-fetch outcomes
(total failure of both included) the snapshot record assembled before
saving carries exactly the fixed canonical columns, in the fixed canonical
order, with no missing key (each field is filled from the fetch results via
`.get` with a default, and the final NA-fill loop finds nothing to add). -/
theorem current_data_schema (t : Int) (wenv : WebEnv) (ienv : InstaOutcome) :
    (currentDataOf t wenv ienv).map Prod.fst = ALL_COLUMNS := rfl

/-- C8 counterexample: "x.php" does not contain ".xml" and is neither fixed
status string, so per the claim it should be displayed raw as unrecognized;
the classifier's first pattern (which also matches "http" and ".php")
classifies it as found instead. -/
theorem sitemap_display_cex :
    sitemap_display "x.php" = "✅ Found" ∧
      strContains "x.php" ".xml" = false ∧
      "x.php" ≠ "Not found (checked robots.txt & common paths)" ∧
      "x.php" ≠ "Directive not found in robots.txt" := by decide

/-- C8 amended: the classification is an ordered chain of substring tests —
a string containing "http", ".xml", or ".php" classifies as found;
otherwise one containing "Not found" as not found; otherwise one containing
"Directive not found" as not declared in robots.txt; only the remaining
strings are displayed raw as unrecognized. (The claim's three positive
cases are instances: ".xml"-containing strings and the two exact status
strings; see the witness.) -/
theorem sitemap_display_classification (s : String) :
    ((strContains s "http" ∨ strContains s ".xml" ∨ strContains s ".php") →
        sitemap_display s = "✅ Found") ∧
    (¬(strContains s "http" ∨ strContains s ".xml" ∨ strContains s ".php") →
        strContains s "Not found" → sitemap_display s = "❌ Not Found") ∧
    (¬(strContains s "http" ∨ strContains s ".xml" ∨ strContains s ".php") →
        ¬ strContains s "Not found" → strContains s "Directive not found" →
        sitemap_display s = "⚠️ Not in robots.txt") ∧
    (¬(strContains s "http" ∨ strContains s ".xml" ∨ strContains s ".php") →
        ¬ strContains s "Not found" → ¬ strContains s "Directive not found" →
        sitemap_display s = "❓ (" ++ s ++ ")") := by
  unfold sitemap_display
  refine ⟨fun h => ?_, fun h1 h2 => ?_, fun h1 h2 h3 => ?_, fun h1 h2 h3 => ?_⟩
  · rw [if_pos h]
  · rw [if_neg h1, if_pos h2]
  · rw [if_neg h1, if_neg h2, if_pos h3]
  · rw [if_neg h1, if_neg h2, if_neg h3]

/-- Witness for C8 amended: one concrete string per classification branch,
including the claim's three positive cases. -/
theorem sitemap_display_classification_witness :
    sitemap_display ".xml here" = "✅ Found" ∧
      sitemap_display "Not found (checked robots.txt & common paths)" = "❌ Not Found" ∧
      sitemap_display "Directive not found in robots.txt" = "⚠️ Not in robots.txt" ∧
      sitemap_display "nothing" = "❓ (" ++ "nothing" ++ ")" :=
  ⟨(sitemap_display_classification ".xml here").1 (by decide),
   (sitemap_display_classification "Not found (checked robots.txt & common paths)").2.1
     (by decide) (by decide),
   (sitemap_display_classification "Directive not found in robots.txt").2.2.1
     (by decide) (by decide) (by decide),
   (sitemap_display_classification "nothing").2.2.2
     (by decide) (by decide) (by decide)⟩

/-- C10: the appended row's `H1 Tags` field is unconditionally converted
with `str()` (both branches of the lambda at line 255 call `str`), so after
conversion it is always a string cell; in particular a record with no
`H1 Tags` value stores the literal sentinel text "<NA>" rather than an
absent cell. -/
theorem save_h1_always_string (d : Row) :
    getCell (convertRecord d) "H1 Tags" = Cell.str (pyStr (getCell d "H1 Tags")) ∧
      (hasCol d "H1 Tags" = false →
        getCell (convertRecord d) "H1 Tags" = Cell.str "<NA>") := by
  have hbase : getCell (convertRecord d) "H1 Tags"
      = Cell.str (pyStr (getCell d "H1 Tags")) := by
    unfold convertRecord
    rw [getCell_map_cols, if_pos (by decide : ("H1 Tags" : String) ∈ ALL_COLUMNS)]
    unfold saveCellFor
    rw [if_neg (by decide), if_neg (by decide : ¬ ("H1 Tags" : String) ∈ NUMERIC_COLUMNS),
        if_pos rfl]
  refine ⟨hbase, fun h => ?_⟩
  rw [hbase, getCell_of_not_hasCol h]
  rfl

/-- Witness for C10 at a record with no `H1 Tags` key. -/
theorem save_h1_always_string_witness :
    hasCol [("Timestamp", Cell.time 0)] "H1 Tags" = false ∧
      getCell (convertRecord [("Timestamp", Cell.time 0)]) "H1 Tags"
        = Cell.str "<NA>" :=
  ⟨rfl, (save_h1_always_string [("Timestamp", Cell.time 0)]).2 rfl⟩

/-- The sitemap field of the extracted record: "N/A" straight away when the
page fetch failed (the function returns its defaults before the robots.txt
step), the computed status otherwise. -/
theorem getCell_fetch_sitemap (env : WebEnv) :
    getCell (fetch_website_data env) "Sitemap Found"
      = Cell.str (match env.soup with
                  | none => "N/A"
                  | some _ => sitemapStatusOf env) := by
  unfold fetch_website_data
  cases env.soup <;> rfl

/-- The robots.txt step leaves "N/A", the directive-not-found string, or
the nonempty join of the discovered directive values. -/
theorem robotsSitemapStatus_cases (env : WebEnv) :
    robotsSitemapStatus env = "N/A" ∨
      robotsSitemapStatus env = "Directive not found in robots.txt" ∨
      (robotsDiscovered env ≠ [] ∧
        robotsSitemapStatus env = commaJoin (robotsDiscovered env)) := by
  cases henv : env.robots with
  | err =>
    left
    simp [robotsSitemapStatus, henv]
  | resp status links =>
    by_cases h200 : status = 200
    · by_cases hl : links = []
      · right; left
        simp [robotsSitemapStatus, henv, h200, hl]
      · right; right
        constructor
        · simpa [robotsDiscovered, henv, h200] using hl
        · simp [robotsSitemapStatus, robotsDiscovered, henv, h200, hl]
    · left
      simp [robotsSitemapStatus, henv, h200]

def c9Env : WebEnv :=
  { url := TARGET_URL, soup := none, robots := RobotsOutcome.err, probe := fun _ => none }

/-- C9 counterexample: a run whose page fetch fails returns early with the
sitemap field "N/A" — not one of the two fixed status strings (in either
the claim's casing or the code's), and not a join of discovered sitemap
URLs, since this run discovered none. -/
theorem sitemap_status_invariant_cex :
    getCell (fetch_website_data c9Env) "Sitemap Found" = Cell.str "N/A" ∧
      "N/A" ≠ "directive not found in robots.txt" ∧
      "N/A" ≠ "not found (checked robots.txt & common paths)" ∧
      "N/A" ≠ "Directive not found in robots.txt" ∧
      "N/A" ≠ "Not found (checked robots.txt & common paths)" ∧
      robotsDiscovered c9Env = [] ∧ probeDiscovered c9Env = [] := by decide

/-- C9 amended: the extractor's sitemap field is either a nonempty textual
join of discovered sitemap URLs (robots.txt directive values or probed
conventional paths), or one of the two fixed status strings (in the code's
casing), or the unavailable default "N/A" kept when the page fetch fails
and the robots/probe steps are skipped. -/
theorem sitemap_status_invariant (env : WebEnv) :
    ∃ s, getCell (fetch_website_data env) "Sitemap Found" = Cell.str s ∧
      (s = "N/A" ∨
       s = "Not found (checked robots.txt & common paths)" ∨
       s = "Directive not found in robots.txt" ∨
       (∃ l, l ≠ [] ∧ (l = robotsDiscovered env ∨ l = probeDiscovered env) ∧
          s = commaJoin l)) := by
  cases hsoup : env.soup with
  | none =>
    refine ⟨"N/A", ?_, Or.inl rfl⟩
    rw [getCell_fetch_sitemap, hsoup]
  | some soup =>
    refine ⟨sitemapStatusOf env, ?_, ?_⟩
    · rw [getCell_fetch_sitemap, hsoup]
    · unfold sitemapStatusOf
      by_cases hfb : robotsSitemapStatus env = ""
          ∨ strContains (robotsSitemapStatus env) "Directive not found"
          ∨ robotsSitemapStatus env = "N/A"
      · rw [if_pos hfb]
        by_cases hfu : probeDiscovered env ≠ []
        · rw [if_pos hfu]
          exact Or.inr (Or.inr (Or.inr ⟨probeDiscovered env, hfu, Or.inr rfl, rfl⟩))
        · rw [if_neg hfu]
          by_cases hdir : robotsSitemapStatus env = "Directive not found in robots.txt"
              ∨ robotsSitemapStatus env = "N/A"
          · rw [if_pos hdir]
            exact Or.inr (Or.inl rfl)
          · rw [if_neg hdir]
            rcases robotsSitemapStatus_cases env with h | h | ⟨hne, hEq⟩
            · exact absurd (Or.inr h) hdir
            · exact absurd (Or.inl h) hdir
            · exact Or.inr (Or.inr (Or.inr ⟨robotsDiscovered env, hne, Or.inl rfl, hEq⟩))
      · rw [if_neg hfb]
        rcases robotsSitemapStatus_cases env with h | h | ⟨hne, hEq⟩
        · exact absurd (Or.inr (Or.inr h)) hfb
        · exact absurd (Or.inr (Or.inl (by rw [h]; decide))) hfb
        · exact Or.inr (Or.inr (Or.inr ⟨robotsDiscovered env, hne, Or.inl rfl, hEq⟩))

theorem getCell_convertRecord_ts (d : Row) (t : Int)
    (h : pd_to_datetime (getCell d "Timestamp") = some t) :
    getCell (convertRecord d) "Timestamp" = Cell.time t := by
  unfold convertRecord
  rw [getCell_map_cols, if_pos (by decide : ("Timestamp" : String) ∈ ALL_COLUMNS)]
  unfold saveCellFor
  rw [if_pos rfl, h]

theorem getCell_stringify_canonical (g : String → Cell) (c : String)
    (hc : c ∈ ALL_COLUMNS) :
    getCell (stringifyTs (ALL_COLUMNS.map (fun x => (x, g x)))) c
      = if c = "Timestamp" then Cell.str (pyStr (g c)) else g c := by
  rw [stringifyTs_map_cols, getCell_map_cols, if_pos hc]

theorem rowAllNa_stringify_canonical (g : String → Cell) :
    rowAllNa (stringifyTs (ALL_COLUMNS.map (fun x => (x, g x)))) = false := by
  rw [stringifyTs_map_cols]
  unfold rowAllNa
  rw [List.all_eq_false]
  refine ⟨("Timestamp", Cell.str (pyStr (g "Timestamp"))), ?_, by simp⟩
  have hmem : ("Timestamp" : String) ∈ ALL_COLUMNS := by decide
  have := List.mem_map_of_mem
    (fun c => (c, if c = "Timestamp" then Cell.str (pyStr (g c)) else g c)) hmem
  simpa using this

/-- Reloading the stringified form of a canonical row with instant `u`
parses back to a row carrying instant `u`. -/
theorem normalize_stringify_canonical (g : String → Cell) (u : Int)
    (hg : g "Timestamp" = Cell.time u) :
    ∃ out, normalizeLoadedRow (stringifyTs (ALL_COLUMNS.map (fun x => (x, g x))))
        = some out ∧ getCell out "Timestamp" = Cell.time u := by
  have hts : getCell (stringifyTs (ALL_COLUMNS.map (fun x => (x, g x)))) "Timestamp"
      = Cell.str (intToStr u) := by
    rw [getCell_stringify_canonical g "Timestamp" (by decide), if_pos rfl, hg]
    rfl
  unfold normalizeLoadedRow
  rw [hts]
  simp only [pd_to_datetime, strToTime_intToStr]
  refine ⟨_, rfl, ?_⟩
  rw [getCell_map_cols, if_pos (by decide : ("Timestamp" : String) ∈ ALL_COLUMNS)]
  simp [loadCellFor]

theorem load_row_shape_opt {sheet : Option (List Row)} {r : Row}
    (hr : r ∈ (load_historical_data sheet).rows) :
    ∃ r0 t, pd_to_datetime (getCell r0 "Timestamp") = some t ∧
      r = ALL_COLUMNS.map (fun c => (c, loadCellFor r0 t c)) := by
  cases sheet with
  | none => simp [load_historical_data] at hr
  | some sh => exact load_row_shape hr

/-- C1 amended: appending a record whose timestamp parses and is at least
every timestamp already in the loaded table, then loading, yields a table
in which the new row's parsed timestamp is present and is the maximum of
the Timestamp column; and the persisted table is exactly the loaded table
plus the converted record, sorted ascending by timestamp and rewritten
whole (timestamps serialized as text). -/
theorem save_then_load_max (sheet : Option (List Row)) (d : Row) (t : Int)
    (hts : pd_to_datetime (getCell d "Timestamp") = some t)
    (hhas : hasCol d "Timestamp" = true)
    (hmax : ∀ r ∈ (load_historical_data sheet).rows, ∀ u,
        getCell r "Timestamp" = Cell.time u → u ≤ t) :
    ∃ tbl, save_historical_data sheet d = some tbl ∧
      tbl.rows = (sortRows tsLe
          ((load_historical_data sheet).rows ++ [convertRecord d])).map stringifyTs ∧
      (∃ r ∈ (load_historical_data (some tbl.rows)).rows,
          getCell r "Timestamp" = Cell.time t) ∧
      (∀ r ∈ (load_historical_data (some tbl.rows)).rows, ∀ u,
          getCell r "Timestamp" = Cell.time u → u ≤ t) := by
  have hcanon : ∀ r ∈ (load_historical_data sheet).rows ++ [convertRecord d],
      ∃ (g : String → Cell) (u : Int), r = ALL_COLUMNS.map (fun c => (c, g c))
        ∧ g "Timestamp" = Cell.time u ∧ u ≤ t := by
    intro r hr
    rcases List.mem_append.mp hr with hr | hr
    · obtain ⟨r0, u0, hu0, hshape⟩ := load_row_shape_opt hr
      refine ⟨loadCellFor r0 u0, u0, hshape, by simp [loadCellFor], ?_⟩
      apply hmax r hr
      rw [hshape, getCell_map_cols, if_pos (by decide : ("Timestamp" : String) ∈ ALL_COLUMNS)]
      simp [loadCellFor]
    · have : r = convertRecord d := by simpa using hr
      subst this
      refine ⟨saveCellFor d, t, rfl, ?_, le_refl t⟩
      unfold saveCellFor
      rw [if_pos rfl, hts]
  refine ⟨⟨ALL_COLUMNS, (sortRows tsLe
      ((load_historical_data sheet).rows ++ [convertRecord d])).map stringifyTs⟩,
      ?_, rfl, ?_, ?_⟩
  · unfold save_historical_data
    rw [if_pos hhas]
  · -- the appended row reappears with its parsed timestamp
    have hmem1 : convertRecord d ∈ (load_historical_data sheet).rows ++ [convertRecord d] := by
      simp
    have hmem2 := (mem_sortRows tsLe (convertRecord d) _).mpr hmem1
    have hmem3 : stringifyTs (convertRecord d)
        ∈ (sortRows tsLe ((load_historical_data sheet).rows ++ [convertRecord d])).map
            stringifyTs :=
      List.mem_map_of_mem _ hmem2
    have hst : saveCellFor d "Timestamp" = Cell.time t := by
      unfold saveCellFor
      rw [if_pos rfl, hts]
    obtain ⟨out, hnorm, hout⟩ := normalize_stringify_canonical (saveCellFor d) t hst
    refine ⟨out, ?_, hout⟩
    simp only [load_historical_data, List.mem_filterMap]
    refine ⟨stringifyTs (convertRecord d), ?_, hnorm⟩
    rw [List.mem_filter]
    refine ⟨hmem3, ?_⟩
    rw [show convertRecord d = ALL_COLUMNS.map (fun c => (c, saveCellFor d c)) from rfl,
        rowAllNa_stringify_canonical]
    rfl
  · -- every reloaded timestamp is bounded by the appended one
    intro r2 hr2 u hu
    simp only [load_historical_data, List.mem_filterMap] at hr2
    obtain ⟨r1, hr1, hnorm⟩ := hr2
    rw [List.mem_filter] at hr1
    obtain ⟨hr1mem, _⟩ := hr1
    obtain ⟨r, hr, rfl⟩ := List.mem_map.mp hr1mem
    have hrS := (mem_sortRows tsLe r _).mp hr
    obtain ⟨g, u0, hshape, hgts, hle⟩ := hcanon r hrS
    subst hshape
    obtain ⟨out, hnorm2, hout⟩ := normalize_stringify_canonical g u0 hgts
    rw [hnorm2] at hnorm
    have hEq : out = r2 := Option.some.inj hnorm
    subst hEq
    rw [hout] at hu
    injection hu with h
    omega

def c1Sheet : List Row := [[("Timestamp", Cell.str "100")]]

def c1BadRec : Row := [("Timestamp", Cell.time 50)]

/-- C1 counterexample: appending a record whose timestamp (50) is older
than a stored row's (100) and reloading yields a table whose Timestamp
column is [50, 100] — the new row's parsed timestamp is not the maximum,
refuting the claim as stated for arbitrary records. -/
theorem save_then_load_max_cex :
    (save_historical_data (some c1Sheet) c1BadRec).map
        (fun tbl => (load_historical_data (some tbl.rows)).rows.map
          (fun r => getCell r "Timestamp"))
      = some [Cell.time 50, Cell.time 100] ∧
      pd_to_datetime (getCell c1BadRec "Timestamp") = some 50 ∧
      ¬ (100 : Int) ≤ 50 := by decide

def c1Rec : Row := [("Timestamp", Cell.time 200), ("H1 Tags", Cell.list ["a"])]

def c1LoadedRow : Row :=
  [("Timestamp", Cell.time 100), ("URL", Cell.na), ("Instagram Handle", Cell.na),
   ("Title", Cell.na), ("Meta Description", Cell.na), ("Robots.txt Exists", Cell.na),
   ("Sitemap Found", Cell.na), ("H1 Tags", Cell.str "<NA>"),
   ("Followers", Cell.na), ("Following", Cell.na), ("Posts", Cell.na)]

/-- Witness for C1 amended at a concrete store and record. -/
theorem save_then_load_max_witness :
    ∃ tbl, save_historical_data (some c1Sheet) c1Rec = some tbl ∧
      tbl.rows = (sortRows tsLe
          ((load_historical_data (some c1Sheet)).rows ++ [convertRecord c1Rec])).map
            stringifyTs ∧
      (∃ r ∈ (load_historical_data (some tbl.rows)).rows,
          getCell r "Timestamp" = Cell.time 200) ∧
      (∀ r ∈ (load_historical_data (some tbl.rows)).rows, ∀ u,
          getCell r "Timestamp" = Cell.time u → u ≤ 200) :=
  save_then_load_max (some c1Sheet) c1Rec 200 (by decide) (by decide)
    (by
      intro r hr u hu
      have hrows : (load_historical_data (some c1Sheet)).rows = [c1LoadedRow] := by decide
      rw [hrows] at hr
      have hr' : r = c1LoadedRow := by simpa using hr
      subst hr'
      have h100 : getCell c1LoadedRow "Timestamp" = Cell.time 100 := by decide
      rw [h100] at hu
      injection hu with h
      omega)

theorem hexVal_hexDigitChar {d : Nat} (h : d < 16) : hexVal (hexDigitChar d) = some d := by
  unfold hexVal hexDigitChar
  by_cases h10 : d < 10
  · rw [if_pos h10]
    have ht : (Char.ofNat (48 + d)).toNat = 48 + d := toNat_ofNat_small _ (by omega)
    simp only [ht]
    rw [if_pos (by omega : 48 ≤ 48 + d ∧ 48 + d ≤ 57)]
    congr 1
    omega
  · rw [if_neg h10]
    have ht : (Char.ofNat (87 + d)).toNat = 87 + d := toNat_ofNat_small _ (by omega)
    simp only [ht]
    rw [if_neg (by omega : ¬ (48 ≤ 87 + d ∧ 87 + d ≤ 57)),
        if_pos (by omega : 97 ≤ 87 + d ∧ 87 + d ≤ 102)]
    congr 1
    omega

theorem parseStrBody_quote (q : Char) (rest : List Char) :
    parseStrBody q (q :: rest) = some ([], rest) := by
  unfold parseStrBody
  rw [if_pos rfl]

theorem parseStrBody_raw {q c : Char} (rest : List Char)
    (hq : c ≠ q) (hb : c ≠ '\\') (hn : c ≠ '\n') :
    parseStrBody q (c :: rest) = (parseStrBody q rest).map (fun p => (c :: p.1, p.2)) := by
  unfold parseStrBody
  rw [if_neg hq, if_neg hb, if_neg hn, ← parseStrBody.eq_def]

theorem parseStrBody_esc {q e d : Char} (rest : List Char)
    (hq : ('\\' : Char) ≠ q) (hx : e ≠ 'x') (hd : decodeEsc e = some d) :
    parseStrBody q ('\\' :: e :: rest)
      = (parseStrBody q rest).map (fun p => (d :: p.1, p.2)) := by
  unfold parseStrBody
  rw [if_neg hq, if_pos rfl]
  simp [hx, hd, ← parseStrBody.eq_def]

theorem parseStrBody_hex {q : Char} (h1 h2 : Char) {a b : Nat} (rest : List Char)
    (hq : ('\\' : Char) ≠ q) (hv1 : hexVal h1 = some a) (hv2 : hexVal h2 = some b) :
    parseStrBody q ('\\' :: 'x' :: h1 :: h2 :: rest)
      = (parseStrBody q rest).map (fun p => (Char.ofNat (16 * a + b) :: p.1, p.2)) := by
  unfold parseStrBody
  rw [if_neg hq, if_pos rfl]
  simp [hv1, hv2, ← parseStrBody.eq_def]

/-- Parsing back an escaped string body up to the closing quote recovers
the original characters (the repr / literal_eval core round trip). -/
theorem parseStrBody_escBody (q : Char) (hq : q = '\'' ∨ q = '"') (s rest : List Char) :
    parseStrBody q (escBody q s ++ q :: rest) = some (s, rest) := by
  have hqb : ('\\' : Char) ≠ q := by rcases hq with h | h <;> subst h <;> decide
  have hqn : ('\n' : Char) ≠ q := by rcases hq with h | h <;> subst h <;> decide
  induction s with
  | nil =>
    simp only [escBody, List.map_nil, List.flatten_nil, List.nil_append]
    exact parseStrBody_quote q rest
  | cons c cs ih =>
    have hbody : escBody q (c :: cs) = escChar q c ++ escBody q cs := by
      simp [escBody]
    rw [hbody, List.append_assoc]
    unfold escChar
    split_ifs with h1 h2 h3 h4 h5 h6
    · subst h1
      rw [show (['\\', '\\'] : List Char) ++ (escBody q cs ++ q :: rest)
          = '\\' :: '\\' :: (escBody q cs ++ q :: rest) from rfl,
        parseStrBody_esc _ hqb (by decide)
          (by decide : decodeEsc '\\' = some '\\'), ih]
      rfl
    · subst h2
      have hdq : decodeEsc c = some c := by
        rcases hq with h | h <;> subst h <;> decide
      have hxq : c ≠ 'x' := by
        rcases hq with h | h <;> subst h <;> decide
      rw [show (['\\', c] : List Char) ++ (escBody c cs ++ c :: rest)
          = '\\' :: c :: (escBody c cs ++ c :: rest) from rfl,
        parseStrBody_esc _ hqb hxq hdq, ih]
      rfl
    · subst h3
      rw [show (['\\', 'n'] : List Char) ++ (escBody q cs ++ q :: rest)
          = '\\' :: 'n' :: (escBody q cs ++ q :: rest) from rfl,
        parseStrBody_esc _ hqb (by decide)
          (by decide : decodeEsc 'n' = some '\n'), ih]
      rfl
    · subst h4
      rw [show (['\\', 'r'] : List Char) ++ (escBody q cs ++ q :: rest)
          = '\\' :: 'r' :: (escBody q cs ++ q :: rest) from rfl,
        parseStrBody_esc _ hqb (by decide)
          (by decide : decodeEsc 'r' = some '\r'), ih]
      rfl
    · subst h5
      rw [show (['\\', 't'] : List Char) ++ (escBody q cs ++ q :: rest)
          = '\\' :: 't' :: (escBody q cs ++ q :: rest) from rfl,
        parseStrBody_esc _ hqb (by decide)
          (by decide : decodeEsc 't' = some '\t'), ih]
      rfl
    · have hv : c.toNat < 256 := by
        rcases h6 with h | h <;> omega
      rw [show (['\\', 'x', hexDigitChar (c.toNat / 16), hexDigitChar (c.toNat % 16)]
            : List Char) ++ (escBody q cs ++ q :: rest)
          = '\\' :: 'x' :: hexDigitChar (c.toNat / 16) :: hexDigitChar (c.toNat % 16)
            :: (escBody q cs ++ q :: rest) from rfl,
        parseStrBody_hex _ _ _ hqb
          (hexVal_hexDigitChar (by omega : c.toNat / 16 < 16))
          (hexVal_hexDigitChar (by omega : c.toNat % 16 < 16)), ih]
      have hchar : Char.ofNat (16 * (c.toNat / 16) + c.toNat % 16) = c := by
        rw [Nat.div_add_mod, Char.ofNat_toNat]
      rw [hchar]
      rfl
    · rw [show ([c] : List Char) ++ (escBody q cs ++ q :: rest)
          = c :: (escBody q cs ++ q :: rest) from rfl,
        parseStrBody_raw _ h2 h1 h3, ih]
      rfl

theorem quoteOf_cases (s : List Char) : quoteOf s = '\'' ∨ quoteOf s = '"' := by
  unfold quoteOf
  split
  · exact Or.inr rfl
  · exact Or.inl rfl

theorem pyReprChars_append (s L : List Char) :
    pyReprChars s ++ L = quoteOf s :: (escBody (quoteOf s) s ++ quoteOf s :: L) := by
  simp [pyReprChars]

/-- Parsing one serialized string literal recovers the string and leaves
the remaining input. -/
theorem parseStrLit_pyRepr (s rest : List Char) :
    parseStrLit (pyReprChars s ++ rest) = some (s, rest) := by
  rw [pyReprChars_append]
  show (if quoteOf s = '\'' ∨ quoteOf s = '"'
      then parseStrBody (quoteOf s) (escBody (quoteOf s) s ++ quoteOf s :: rest)
      else none) = some (s, rest)
  rw [if_pos (quoteOf_cases s)]
  exact parseStrBody_escBody _ (quoteOf_cases s) s rest

theorem isPySpace_quoteOf (s : List Char) : isPySpace (quoteOf s) = false := by
  unfold quoteOf
  split <;> decide

theorem quoteOf_ne_rbracket (s : List Char) : quoteOf s ≠ ']' := by
  unfold quoteOf
  split <;> decide

theorem skipWS_cons_nospace {c : Char} (l : List Char) (h : isPySpace c = false) :
    skipWS (c :: l) = c :: l := by
  simp [skipWS, List.dropWhile_cons, h]

theorem skipWS_space_cons (l : List Char) : skipWS (' ' :: l) = skipWS l := by
  simp only [skipWS, List.dropWhile_cons]
  rw [if_pos (by decide : isPySpace ' ' = true)]

theorem serSep_length_ge (xs : List (List Char)) : xs.length ≤ (serSep xs).length := by
  induction xs with
  | nil => simp [serSep]
  | cons x t ih =>
    simp only [serSep, List.length_cons, List.length_append]
    omega

/-- Parsing the serialized tail of a list literal recovers the remaining
elements. -/
theorem parseMore_serSep (xs : List (List Char)) :
    ∀ fuel rest, xs.length < fuel →
      parseMore fuel (serSep xs ++ (']' :: rest)) = some (xs, rest) := by
  induction xs with
  | nil =>
    intro fuel rest hf
    cases fuel with
    | zero => omega
    | succ f =>
      rw [show serSep [] ++ (']' :: rest) = ']' :: rest from rfl]
      simp only [parseMore]
      rw [skipWS_cons_nospace _ (by decide : isPySpace ']' = false)]
      simp only []
      rw [if_pos trivial]
  | cons x t ih =>
    intro fuel rest hf
    cases fuel with
    | zero => omega
    | succ f =>
      have hser : serSep (x :: t) ++ (']' :: rest)
          = ',' :: ' ' :: (pyReprChars x ++ (serSep t ++ (']' :: rest))) := by
        simp [serSep]
      rw [hser]
      simp only [parseMore]
      rw [skipWS_cons_nospace _ (by decide : isPySpace ',' = false)]
      simp only []
      rw [if_pos trivial]
      rw [skipWS_space_cons, pyReprChars_append,
          skipWS_cons_nospace _ (isPySpace_quoteOf x)]
      simp only []
      rw [if_neg (quoteOf_ne_rbracket x), ← pyReprChars_append, parseStrLit_pyRepr]
      simp only []
      rw [ih f rest (by simp at hf; omega)]
      simp

theorem serElems_length_ge (ys : List (List Char)) : ys.length ≤ (serElems ys).length := by
  cases ys with
  | nil => simp [serElems]
  | cons y t =>
    have h1 := serSep_length_ge t
    have h2 : 2 ≤ (pyReprChars y).length := by
      simp [pyReprChars]
    simp only [serElems, List.length_cons, List.length_append]
    omega

theorem parseListChars_ser (xs : List (List Char)) (fuel : Nat) (hf : xs.length ≤ fuel) :
    parseListChars fuel ('[' :: (serElems xs ++ [']'])) = some (xs, []) := by
  unfold parseListChars
  rw [skipWS_cons_nospace _ (by decide : isPySpace '[' = false)]
  simp only []
  rw [if_pos trivial]
  cases xs with
  | nil =>
    rw [show serElems [] ++ [']'] = ']' :: ([] : List Char) from rfl,
        skipWS_cons_nospace _ (by decide : isPySpace ']' = false)]
    simp only []
    rw [if_pos trivial]
  | cons x t =>
    rw [show serElems (x :: t) ++ [']'] = pyReprChars x ++ (serSep t ++ (']' :: []))
        from by simp [serElems],
      pyReprChars_append, skipWS_cons_nospace _ (isPySpace_quoteOf x)]
    simp only []
    rw [if_neg (quoteOf_ne_rbracket x), ← pyReprChars_append, parseStrLit_pyRepr]
    simp only []
    rw [parseMore_serSep t fuel [] (by simp only [List.length_cons] at hf; omega)]

/-- The store's serialization of an H1 list parses back to the same list
(`ast.literal_eval` after `str`). -/
theorem literalEval_pyStrOfList (xs : List String) :
    literalEvalStrList (pyStrOfList xs) = some xs := by
  unfold literalEvalStrList pyStrOfList
  rw [show (String.mk ('[' :: (serElems (xs.map String.data) ++ [']']))).data
      = '[' :: (serElems (xs.map String.data) ++ [']']) from rfl]
  have hb := serElems_length_ge (xs.map String.data)
  rw [parseListChars_ser _ _ (by simp only [List.length_map] at hb ⊢; simp; omega)]
  simp only []
  rw [show skipWS ([] : List Char) = [] from rfl, if_pos rfl, List.map_map]
  have hid : String.mk ∘ String.data = id := funext fun s => rfl
  rw [hid, List.map_id]

/-- C2: serializing an H1 tag sequence with the store's textual
serialization (`str` of the Python list, applied at save time) and parsing
it back with the presenter's reconstruction (bracket-delimiter check plus
`ast.literal_eval`) yields the original sequence, for every sequence of
tag strings — in particular the empty sequence, any single string, and any
multi-entry sequence with comma- and bracket-containing entries. -/
theorem h1_serialize_roundtrip (xs : List String) :
    h1_list (Cell.str (pyStrOfList xs)) = xs := by
  have hstart : startsWithCh (pyStrOfList xs) '[' = true := rfl
  have hend : endsWithCh (pyStrOfList xs) ']' = true := by
    unfold endsWithCh pyStrOfList
    rw [show (String.mk ('[' :: (serElems (xs.map String.data) ++ [']']))).data
        = '[' :: (serElems (xs.map String.data) ++ [']']) from rfl,
      show '[' :: (serElems (xs.map String.data) ++ [']'])
        = ('[' :: serElems (xs.map String.data)) ++ [']'] from by simp,
      List.getLast?_concat]
    simp
  unfold h1_list
  simp only []
  rw [if_pos ⟨hstart, hend⟩, literalEval_pyStrOfList]
